import Mathlib

/-!
Verification development for the FLORA Adam optimizer
(`pytorch_fob/optimizers/flora/optimizer.py`).

The per-parameter update of `FloraAdam.step`, the compression policy
`_should_compress`, the projection operators `_down_proj` / `_up_proj`,
the seed helpers `stable_randn`, `next_seed`, `split_seed`, and the
constructor's seed assignment are embedded shallowly.  Tensors are
modelled as a shape together with an entry function; the external torch
random primitives (generator creation, `randn` / `randint` draws from an
explicit generator) are abstracted as a record of pure functions, since
a draw from an explicitly seeded generator is a deterministic function
of the generator state.  Scalar arithmetic is carried out over an
abstract field with an abstract square-root function, mirroring the real
arithmetic of the source formulas.
-/

set_option autoImplicit false

namespace Flora

/-- Model of `torch.device`: the CPU or an indexed accelerator device. -/
inductive Device where
  | cpu
  | cuda (index : ℕ)
deriving DecidableEq

/-- Model of `torch.dtype` as far as this module distinguishes dtypes. -/
inductive Dtype where
  | float32
  | float16
  | float64
deriving DecidableEq

/-- A tensor: a shape (list of dimension sizes) together with an entry
function from multi-indices to scalars.  Entries at indices outside the
shape are junk and never compared. -/
structure Tensor (α : Type) where
  shape : List ℕ
  entry : List ℕ → α

/-- Python `min` over a nonempty tuple of dimension sizes. -/
def listMin : List ℕ → ℕ
  | [] => 0
  | x :: xs => xs.foldl Nat.min x

/-- Python `max` over a nonempty tuple of dimension sizes. -/
def listMax : List ℕ → ℕ
  | [] => 0
  | x :: xs => xs.foldl Nat.max x

/-- `torch.zeros(shape)`: a zero-filled tensor of the given shape. -/
def Tensor.zeros {α : Type} [Field α] (shape : List ℕ) : Tensor α :=
  ⟨shape, fun _ => 0⟩

/-- `torch.zeros_like(t)`: a zero-filled tensor of `t`'s shape. -/
def Tensor.zerosLike {α : Type} [Field α] (t : Tensor α) : Tensor α :=
  ⟨t.shape, fun _ => 0⟩

/-- Entrywise unary operation, e.g. division by a scalar or `sqrt`. -/
def Tensor.map {α : Type} (f : α → α) (t : Tensor α) : Tensor α :=
  ⟨t.shape, fun ix => f (t.entry ix)⟩

/-- Entrywise binary operation between same-shaped tensors (in-place
torch operations keep the left operand's shape). -/
def Tensor.map2 {α : Type} (f : α → α → α) (t u : Tensor α) : Tensor α :=
  ⟨t.shape, fun ix => f (t.entry ix) (u.entry ix)⟩

/-- Entrywise ternary operation, used for `addcdiv_` / `addcmul_`. -/
def Tensor.map3 {α : Type} (f : α → α → α → α) (t u v : Tensor α) : Tensor α :=
  ⟨t.shape, fun ix => f (t.entry ix) (u.entry ix) (v.entry ix)⟩

/-- `t.t()` on a 2-D tensor: reversed shape, transposed indexing. -/
def Tensor.transpose {α : Type} (t : Tensor α) : Tensor α :=
  ⟨t.shape.reverse, fun ix => t.entry ix.reverse⟩

/-- `a @ b` for 2-D tensors: the (i,j) entry is the inner product of
row i of `a` with column j of `b`; the inner dimension is read off `b`. -/
def Tensor.matMul {α : Type} [Field α] (a b : Tensor α) : Tensor α :=
  ⟨[a.shape.headD 0, b.shape.getD 1 0],
   fun ix =>
     match ix with
     | [i, j] => ∑ k ∈ Finset.range (b.shape.headD 0), a.entry [i, k] * b.entry [k, j]
     | _ => 0⟩

/-- Abstraction of the torch pseudorandom primitives used by the source.
`γ` is the generator-state type.  `newGen d` models `torch.Generator(d)`,
`manualSeed g s` models `g.manual_seed(s)`, `randn shape g dt` models
`torch.randn(shape, generator=g, dtype=dt)` (a pure function of the
generator state), and `randint n g` models
`torch.randint(0, iinfo(int64).max, (n,), generator=g).tolist()`. -/
structure TorchRand (γ α : Type) where
  newGen : Device → γ
  manualSeed : γ → ℤ → γ
  randn : List ℕ → γ → Dtype → Tensor α
  randint : ℕ → γ → List ℤ
  randn_shape : ∀ shape g dt, (randn shape g dt).shape = shape

/-- The tensor value produced by `stable_randn`: a draw from a fresh
generator seeded exactly by `seed` on the given device. -/
def stable_randn_value {γ α : Type} (m : TorchRand γ α) (shape : List ℕ)
    (seed : ℤ) (device : Device) (dtype : Dtype) : Tensor α :=
  m.randn shape (m.manualSeed (m.newGen device) seed) dtype

/-- The ambient (global) random state of the process, threaded through
`stable_randn` to express that the function neither reads nor mutates it. -/
structure RngWorld (γ : Type) where
  globalGen : γ

/-- `stable_randn(shape, seed, device, dtype)` from the source: defaults
the device to CPU, builds a fresh generator seeded by `seed`, and draws
from it.  The ambient random state is passed in and returned to make the
effect footprint explicit. -/
def stable_randn {γ α : Type} (m : TorchRand γ α) (shape : List ℕ) (seed : ℤ)
    (device : Option Device) (dtype : Dtype) (w : RngWorld γ) :
    Tensor α × RngWorld γ :=
  let dev := device.getD Device.cpu
  (stable_randn_value m shape seed dev dtype, w)

/-- `next_seed(seed, adv=0xF)` from the source: draw `adv` pseudorandom
int64 values from a fresh default-device generator seeded by `seed` and
return the last one. -/
def next_seed {γ α : Type} (m : TorchRand γ α) (seed : ℤ) (adv : ℕ := 15) : ℤ :=
  (m.randint adv (m.manualSeed (m.newGen Device.cpu) seed)).getLastD 0

/-- `split_seed(seed)` from the source: draw exactly two pseudorandom
int64 values from a fresh default-device generator seeded by `seed`. -/
def split_seed {γ α : Type} (m : TorchRand γ α) (seed : ℤ) : ℤ × ℤ :=
  let draws := m.randint 2 (m.manualSeed (m.newGen Device.cpu) seed)
  (draws.getD 0 0, draws.getD 1 0)

/-- `FloraAdam._should_compress(param_group, param_shape)`: the group's
rank is set and positive, the shape is 2-dimensional, its smaller side
is at least the rank, and the aspect quotient `max(shape)/min(shape)`
(real division, as in Python) is at most 4. -/
def should_compress (rank : Option ℤ) (shape : List ℕ) : Bool :=
  match rank with
  | none => false
  | some r =>
    decide (0 < r) && decide (shape.length = 2)
      && decide (r ≤ (listMin shape : ℤ))
      -- Python computes `max(shape) / min(shape) <= 4` with real division;
      -- the multiplicative form is used here so the value is computable by
      -- the kernel.  It agrees with the division form on every input on
      -- which the conjunction is reached: when `min(shape) = 0` the
      -- preceding conjunct `rank <= min(shape)` is already false.
      && decide (listMax shape ≤ 4 * listMin shape)

/-- `_down_proj(seed, rank, tensor)` from the source: split the seed; if
the tensor is wide (`shape[0] < shape[-1]`) build the left projection of
shape `(rank, shape[0])` from the left seed, scale entries by
`1/sqrt(rank)` and left-multiply; otherwise build the right projection of
shape `(shape[-1], rank)` from the right seed and right-multiply.  The
projection is materialized on the tensor's device and dtype. -/
def down_proj {γ α : Type} [Field α] (m : TorchRand γ α) (sqrtf : α → α)
    (seed : ℤ) (rank : ℕ) (dev : Device) (dt : Dtype) (tensor : Tensor α) :
    Tensor α :=
  let lseed := (split_seed m seed).1
  let rseed := (split_seed m seed).2
  if tensor.shape.headD 0 < tensor.shape.getLastD 0 then
    let left_projection :=
      (stable_randn_value m [rank, tensor.shape.headD 0] lseed dev dt).map
        (fun x => x / sqrtf (rank : α))
    left_projection.matMul tensor
  else
    let right_projection :=
      (stable_randn_value m [tensor.shape.getLastD 0, rank] rseed dev dt).map
        (fun x => x / sqrtf (rank : α))
    tensor.matMul right_projection

/-- `_up_proj(seed, rank, shape, ctensor)` from the source: rebuild the
same projection as `_down_proj` (same seed half, same shape rule, keyed
on the full `shape`) and multiply by its transpose. -/
def up_proj {γ α : Type} [Field α] (m : TorchRand γ α) (sqrtf : α → α)
    (seed : ℤ) (rank : ℕ) (shape : List ℕ) (dev : Device) (dt : Dtype)
    (ctensor : Tensor α) : Tensor α :=
  let lseed := (split_seed m seed).1
  let rseed := (split_seed m seed).2
  if shape.headD 0 < shape.getLastD 0 then
    let left_projection :=
      (stable_randn_value m [rank, shape.headD 0] lseed dev dt).map
        (fun x => x / sqrtf (rank : α))
    left_projection.transpose.matMul ctensor
  else
    let right_projection :=
      (stable_randn_value m [shape.getLastD 0, rank] rseed dev dt).map
        (fun x => x / sqrtf (rank : α))
    ctensor.matMul right_projection.transpose

/-- The `self.state[p]` dict of one parameter.  Each field models the
presence or absence of the corresponding dictionary key. -/
structure ParamState (α : Type) where
  step : Option ℕ
  seed : Option ℤ
  exp_avg : Option (Tensor α)
  exp_avg_sq : Option (Tensor α)

/-- A parameter as `step` sees it: its value tensor, its (possibly
absent) gradient, its device and dtype, and its optimizer state. -/
structure Param (α : Type) where
  value : Tensor α
  grad : Option (Tensor α)
  device : Device
  dtype : Dtype
  state : ParamState α

/-- A Python error raised inside the update: a `KeyError` from reading
an absent state key, or a `ZeroDivisionError` from evaluating
`step % kappa` with `kappa = 0`. -/
inductive StepErr where
  | keyError
  | zeroDivision
deriving DecidableEq

/-- The body of `FloraAdam.step` for a single parameter of a group with
settings `(lr, betas, eps, rank, kappa)`.  Returns the updated parameter
and, when the parameter was not skipped, the value of the local
`should_compress` variable that selected the branch.  A read of an
absent state key is a `keyError`; evaluating the rotation test
`state["step"] % group["kappa"]` with `kappa = 0` is a `zeroDivision`
(for `kappa ≠ 0` the `= 0` test agrees with Python's `%`, both amounting
to divisibility). -/
def stepParam {γ α : Type} [Field α] (m : TorchRand γ α) (sqrtf : α → α)
    (lr beta1 beta2 eps : α) (rank : Option ℤ) (kappa : ℤ)
    (p : Param α) : Except StepErr (Param α × Option Bool) :=
  match p.grad with
  | none => .ok (p, none)
  | some grad =>
    let grad_shape := grad.shape
    let sc := should_compress rank grad_shape
    let st0 := p.state
    -- `if (state and 'step' not in state) or (not state)` amounts to
    -- initializing exactly when the 'step' key is absent.
    let st1 : ParamState α :=
      if st0.step.isNone then
        if sc then
          let cshape :=
            if grad_shape.headD 0 < grad_shape.getLastD 0 then
              [(rank.getD 0).toNat, grad_shape.getLastD 0]
            else
              [grad_shape.headD 0, (rank.getD 0).toNat]
          { st0 with step := some 0,
                     exp_avg := some (Tensor.zeros cshape),
                     exp_avg_sq := some p.value.zerosLike }
        else
          { st0 with step := some 0,
                     exp_avg := some p.value.zerosLike,
                     exp_avg_sq := some p.value.zerosLike }
      else st0
    match st1.exp_avg, st1.exp_avg_sq with
    | some exp_avg, some exp_avg_sq =>
      let t : ℕ := st1.step.getD 0 + 1
      if sc then
        match st1.seed with
        | none => .error .keyError
        | some current_seed =>
          let rnk := (rank.getD 0).toNat
          let cgrad := down_proj m sqrtf current_seed rnk p.device p.dtype grad
          let exp_avg1 :=
            Tensor.map2 (fun a g => beta1 * a + (1 - beta1) * g) exp_avg cgrad
          let exp_avg_sq1 :=
            Tensor.map2 (fun v g => beta2 * v + (1 - beta2) * (g * g)) exp_avg_sq grad
          let bias_correction1 := 1 - beta1 ^ t
          let bias_correction2 := 1 - beta2 ^ t
          let corrected_avg := exp_avg1.map (fun x => x / bias_correction1)
          let corrected_avg_sq := exp_avg_sq1.map (fun x => x / bias_correction2)
          let denom := corrected_avg_sq.map (fun x => sqrtf x + eps)
          let upd :=
            up_proj m sqrtf current_seed rnk grad_shape p.device p.dtype corrected_avg
          let value1 :=
            Tensor.map3 (fun pv u d => pv + -lr * (u / d)) p.value upd denom
          if kappa = 0 then .error .zeroDivision
          else if (t : ℤ) % kappa = 0 then
            let nseed := next_seed m current_seed
            let exp_avg2 :=
              down_proj m sqrtf nseed rnk p.device p.dtype
                (up_proj m sqrtf current_seed rnk grad_shape p.device p.dtype exp_avg1)
            .ok ({ p with
                    value := value1,
                    state := { st1 with
                                step := some t, seed := some nseed,
                                exp_avg := some exp_avg2,
                                exp_avg_sq := some exp_avg_sq1 } }, some sc)
          else
            .ok ({ p with
                    value := value1,
                    state := { st1 with
                                step := some t,
                                exp_avg := some exp_avg1,
                                exp_avg_sq := some exp_avg_sq1 } }, some sc)
      else
        let exp_avg1 :=
          Tensor.map2 (fun a g => beta1 * a + (1 - beta1) * g) exp_avg grad
        let exp_avg_sq1 :=
          Tensor.map2 (fun v g => beta2 * v + (1 - beta2) * (g * g)) exp_avg_sq grad
        let bias_correction1 := 1 - beta1 ^ t
        let bias_correction2 := 1 - beta2 ^ t
        let corrected_avg := exp_avg1.map (fun x => x / bias_correction1)
        let corrected_avg_sq := exp_avg_sq1.map (fun x => x / bias_correction2)
        let denom := corrected_avg_sq.map (fun x => sqrtf x + eps)
        let value1 :=
          Tensor.map3 (fun pv u d => pv + -lr * (u / d)) p.value corrected_avg denom
        .ok ({ p with
                value := value1,
                state := { st1 with
                            step := some t,
                            exp_avg := some exp_avg1,
                            exp_avg_sq := some exp_avg_sq1 } }, some sc)
    | _, _ => .error .keyError

/-- `n` successive invocations of `step` on one parameter, each seeing
the parameter's (persisting) gradient. -/
def iterateStep {γ α : Type} [Field α] (m : TorchRand γ α) (sqrtf : α → α)
    (lr beta1 beta2 eps : α) (rank : Option ℤ) (kappa : ℤ) :
    ℕ → Param α → Except StepErr (Param α)
  | 0, p => .ok p
  | n + 1, p =>
    match stepParam m sqrtf lr beta1 beta2 eps rank kappa p with
    | .error e => .error e
    | .ok (q, _) => iterateStep m sqrtf lr beta1 beta2 eps rank kappa n q

/-- The constructor arguments of `FloraAdam.__init__` that end up in the
group defaults (`lr` and `rank` default to Python `None`). -/
structure FloraConfig (α : Type) where
  lr : Option α
  betas : α × α
  eps : α
  rank : Option ℤ
  kappa : ℤ
  seed : ℤ

/-- The only construction-time failure: `torch.optim.Optimizer.__init__`
raises when given an empty parameter list. -/
inductive InitErr where
  | emptyParams
deriving DecidableEq

/-- The constructor's seed-assignment loop over one group, threading the
running `params_idx` counter: every parameter advances the counter, and
only parameters with `requires_grad` receive a `seed` state entry. -/
def assignSeedsList (idx : ℤ) : List Bool → ℤ × List (Option ℤ)
  | [] => (idx, [])
  | rg :: rest =>
    let idx1 := idx + 1
    let out := assignSeedsList idx1 rest
    (out.1, (if rg then some idx1 else none) :: out.2)

/-- The constructor's seed-assignment loop over all parameter groups in
iteration order, starting the counter at the base seed. -/
def assignSeeds (idx : ℤ) : List (List Bool) → ℤ × List (List (Option ℤ))
  | [] => (idx, [])
  | g :: gs =>
    let out1 := assignSeedsList idx g
    let outRest := assignSeeds out1.1 gs
    (outRest.1, out1.2 :: outRest.2)

/-- A constructed `FloraAdam` instance: the stored group defaults, the
`requires_grad` flag of each parameter (grouped), and each parameter's
assigned `seed` state entry (`none` when the key is absent). -/
structure FloraAdam (α : Type) where
  cfg : FloraConfig α
  groups : List (List Bool)
  seeds : List (List (Option ℤ))

/-- `FloraAdam.__init__`: stores the defaults unconditionally (the
source performs no validation of `lr`, `betas`, `eps`, `rank` or
`kappa`), then walks all groups assigning sequential seeds to the
trainable parameters.  The only failure is the base class rejecting an
empty parameter list. -/
def floraInit {α : Type} (cfg : FloraConfig α) (groups : List (List Bool)) :
    Except InitErr (FloraAdam α) :=
  if groups.isEmpty then .error .emptyParams
  else .ok { cfg := cfg, groups := groups, seeds := (assignSeeds cfg.seed groups).2 }

/-- A concrete instantiation of the torch randomness abstraction over
`ℚ`, used to evaluate the model on explicit inputs: generator states are
integers, `manual_seed` stores the seed, `randn` fills the tensor with
the seed value, and `randint` returns `n` copies of `seed + 1`. -/
def mTest : TorchRand ℤ ℚ where
  newGen := fun _ => 0
  manualSeed := fun _ s => s
  randn := fun shape g _ => ⟨shape, fun _ => (g : ℚ)⟩
  randint := fun n g => List.replicate n (g + 1)
  randn_shape := fun _ _ _ => rfl

/-- The standard Adam update for a single coordinate, written from the
specification: moving averages with `beta` weights, bias correction by
`1 - beta^t`, and the parameter decremented by
`lr * corrected_avg / (sqrt(corrected_avg_sq) + eps)`.  Returns the new
parameter entry, the new first moment and the new second moment. -/
def adamParamUpdate {α : Type} [Field α] (sqrtf : α → α)
    (lr beta1 beta2 eps : α) (t : ℕ) (pv mv vv gv : α) : α × α × α :=
  let m1 := beta1 * mv + (1 - beta1) * gv
  let v1 := beta2 * vv + (1 - beta2) * (gv * gv)
  let corrected_avg := m1 / (1 - beta1 ^ t)
  let corrected_avg_sq := v1 / (1 - beta2 ^ t)
  (pv - lr * (corrected_avg / (sqrtf corrected_avg_sq + eps)), m1, v1)

/-- A 2 by 2 parameter with constant gradient 1, a trainable parameter's
fresh state (only the `seed` key assigned at construction), used to
evaluate the model on explicit inputs. -/
def pSquare : Param ℚ :=
  { value := ⟨[2, 2], fun _ => 0⟩
    grad := some ⟨[2, 2], fun _ => 1⟩
    device := .cpu
    dtype := .float32
    state := { step := none, seed := some 7, exp_avg := none, exp_avg_sq := none } }

/-- Like `pSquare` but with no `seed` key, as for a parameter that did
not require grad at construction. -/
def pNoSeed : Param ℚ :=
  { pSquare with state := { pSquare.state with seed := none } }

/-- A one-dimensional parameter with constant gradient 1: never
eligible for compression, so it exercises the full Adam path. -/
def pVec : Param ℚ :=
  { value := ⟨[3], fun _ => 0⟩
    grad := some ⟨[3], fun _ => 1⟩
    device := .cpu
    dtype := .float32
    state := { step := none, seed := some 3, exp_avg := none, exp_avg_sq := none } }

/-- `pVec` with no gradient for the current invocation. -/
def pVecNoGrad : Param ℚ := { pVec with grad := none }

/-- Like `pVec` but with an already-initialized state (step counter 1,
zero moments), exercising a non-first full-path update. -/
def pVecInit : Param ℚ :=
  { value := ⟨[3], fun _ => 0⟩
    grad := some ⟨[3], fun _ => 1⟩
    device := .cpu
    dtype := .float32
    state := { step := some 1, seed := some 3,
               exp_avg := some ⟨[3], fun _ => 0⟩, exp_avg_sq := some ⟨[3], fun _ => 0⟩ } }


/-- A configuration violating every construction-time validity rule the
specification demands: `lr` unset, `betas` outside `[0,1)`, `rank` set
but nonpositive, `kappa` nonpositive. -/
def cfgBad : FloraConfig ℚ :=
  { lr := none, betas := (2, -1), eps := 1, rank := some (-3), kappa := 0, seed := 0 }

/-- A plausible optimizer configuration used to evaluate construction
on explicit inputs. -/
def cfgPlain : FloraConfig ℚ :=
  { lr := some 1, betas := (1/2, 1/2), eps := 1, rank := some 2, kappa := 4, seed := 0 }


/-! ## Helper lemmas -/

theorem Tensor.entry_ext {α : Type} {s1 s2 : List ℕ} {e1 e2 : List ℕ → α}
    (hs : s1 = s2) (he : ∀ ix, e1 ix = e2 ix) :
    Tensor.mk s1 e1 = Tensor.mk s2 e2 := by
  subst hs
  exact congrArg (Tensor.mk s1) (funext he)

/-- Characterization of a successful `stepParam` call on a parameter
with a gradient: the branch flag equals the policy evaluated on the
current rank and gradient shape, the step counter increments by one, the
seed advances by `next_seed` exactly when compression is active and the
incremented counter hits a multiple of `kappa`, and gradient, device,
dtype are preserved with both moment entries present afterwards. -/
theorem stepParam_ok_spec {γ α : Type} [Field α] (m : TorchRand γ α) (sqrtf : α → α)
    (lr beta1 beta2 eps : α) (rank : Option ℤ) (kappa : ℤ)
    (v g : Tensor α) (dev : Device) (dt : Dtype)
    (stS : Option ℕ) (stSeed : Option ℤ) (stEA stEAS : Option (Tensor α))
    (q : Param α) (f : Option Bool)
    (h : stepParam m sqrtf lr beta1 beta2 eps rank kappa
          ⟨v, some g, dev, dt, ⟨stS, stSeed, stEA, stEAS⟩⟩ = .ok (q, f)) :
    f = some (should_compress rank g.shape)
      ∧ q.state.step = some (stS.getD 0 + 1)
      ∧ q.state.seed =
          (if should_compress rank g.shape = true
              ∧ ((stS.getD 0 + 1 : ℕ) : ℤ) % kappa = 0
           then stSeed.map (fun s => next_seed m s)
           else stSeed)
      ∧ q.grad = some g
      ∧ q.device = dev ∧ q.dtype = dt
      ∧ q.state.exp_avg.isSome = true
      ∧ q.state.exp_avg_sq.isSome = true := by
  by_cases hsc : should_compress rank g.shape = true
  · cases stS with
    | none =>
      cases stSeed with
      | none => simp [stepParam, hsc] at h
      | some cs =>
        simp only [stepParam, hsc, if_true, Option.isNone_none] at h
        split at h
        next => simp at h
        next hk0 =>
          split at h
          next hmod =>
            simp only [Except.ok.injEq, Prod.mk.injEq] at h
            obtain ⟨rfl, rfl⟩ := h
            refine ⟨by rw [hsc], rfl, ?_, rfl, rfl, rfl, rfl, rfl⟩
            conv_rhs => rw [if_pos ⟨hsc, hmod⟩]
            rfl
          next hmod =>
            simp only [Except.ok.injEq, Prod.mk.injEq] at h
            obtain ⟨rfl, rfl⟩ := h
            refine ⟨by rw [hsc], rfl, ?_, rfl, rfl, rfl, rfl, rfl⟩
            conv_rhs => rw [if_neg (fun hc => hmod hc.2)]
    | some n =>
      cases stEA with
      | none => simp [stepParam] at h
      | some ea =>
        cases stEAS with
        | none => simp [stepParam] at h
        | some eas =>
          cases stSeed with
          | none => simp [stepParam, hsc] at h
          | some cs =>
            simp only [stepParam, hsc, if_true, Option.isNone_some, Bool.false_eq_true,
              if_false] at h
            split at h
            next => simp at h
            next hk0 =>
              split at h
              next hmod =>
                simp only [Except.ok.injEq, Prod.mk.injEq] at h
                obtain ⟨rfl, rfl⟩ := h
                refine ⟨by rw [hsc], rfl, ?_, rfl, rfl, rfl, rfl, rfl⟩
                conv_rhs => rw [if_pos ⟨hsc, hmod⟩]
                rfl
              next hmod =>
                simp only [Except.ok.injEq, Prod.mk.injEq] at h
                obtain ⟨rfl, rfl⟩ := h
                refine ⟨by rw [hsc], rfl, ?_, rfl, rfl, rfl, rfl, rfl⟩
                conv_rhs => rw [if_neg (fun hc => hmod hc.2)]
  · have hsc' : should_compress rank g.shape = false := by
      simpa using hsc
    cases stS with
    | none =>
      simp only [stepParam, hsc', Bool.false_eq_true, if_false, Option.isNone_none,
        if_true] at h
      simp only [Except.ok.injEq, Prod.mk.injEq] at h
      obtain ⟨rfl, rfl⟩ := h
      refine ⟨by rw [hsc'], rfl, ?_, rfl, rfl, rfl, rfl, rfl⟩
      conv_rhs => rw [if_neg (fun hc => hsc hc.1)]
    | some n =>
      cases stEA with
      | none => simp [stepParam] at h
      | some ea =>
        cases stEAS with
        | none => simp [stepParam] at h
        | some eas =>
          simp only [stepParam, hsc', Bool.false_eq_true, if_false, Option.isNone_some] at h
          simp only [Except.ok.injEq, Prod.mk.injEq] at h
          obtain ⟨rfl, rfl⟩ := h
          refine ⟨by rw [hsc'], rfl, ?_, rfl, rfl, rfl, rfl, rfl⟩
          conv_rhs => rw [if_neg (fun hc => hsc hc.1)]

/-- A parameter with no gradient is skipped: the `continue` at the top
of the loop body returns everything unchanged and no flag is produced. -/
theorem stepParam_skip {γ α : Type} [Field α] (m : TorchRand γ α) (sqrtf : α → α)
    (lr beta1 beta2 eps : α) (rank : Option ℤ) (kappa : ℤ)
    (p : Param α) (hg : p.grad = none) :
    stepParam m sqrtf lr beta1 beta2 eps rank kappa p = .ok (p, none) := by
  rcases p with ⟨v, gr, dev, dt, st⟩
  cases gr with
  | none => rfl
  | some g => simp at hg

/-- When the policy selects compression but the parameter has no `seed`
state entry, the update raises a `KeyError`. -/
theorem stepParam_missing_seed {γ α : Type} [Field α] (m : TorchRand γ α) (sqrtf : α → α)
    (lr beta1 beta2 eps : α) (rank : Option ℤ) (kappa : ℤ)
    (v g : Tensor α) (dev : Device) (dt : Dtype)
    (stS : Option ℕ) (stEA stEAS : Option (Tensor α))
    (hsc : should_compress rank g.shape = true) :
    stepParam m sqrtf lr beta1 beta2 eps rank kappa
        ⟨v, some g, dev, dt, ⟨stS, none, stEA, stEAS⟩⟩ = .error .keyError := by
  cases stS with
  | none => simp [stepParam, hsc]
  | some n =>
    cases stEA with
    | none => simp [stepParam, hsc]
    | some ea =>
      cases stEAS with
      | none => simp [stepParam, hsc]
      | some eas => simp [stepParam, hsc]

/-- With `kappa = 0`, every compressed-path update on a seeded
parameter fails: the source evaluates `state["step"] % group["kappa"]`
and raises a `ZeroDivisionError`. -/
theorem stepParam_zero_kappa {γ α : Type} [Field α] (m : TorchRand γ α) (sqrtf : α → α)
    (lr beta1 beta2 eps : α) (rank : Option ℤ)
    (v g : Tensor α) (dev : Device) (dt : Dtype)
    (cs : ℤ) (stEA stEAS : Option (Tensor α))
    (hsc : should_compress rank g.shape = true) :
    stepParam m sqrtf lr beta1 beta2 eps rank 0
        ⟨v, some g, dev, dt, ⟨none, some cs, stEA, stEAS⟩⟩ = .error .zeroDivision := by
  simp [stepParam, hsc]

/-- A parameter with a gradient, a `seed` entry, and either a fresh
state or both moment entries present, always updates successfully,
provided `kappa` is nonzero (at `kappa = 0` the compressed path raises
a `ZeroDivisionError` instead). -/
theorem stepParam_progress {γ α : Type} [Field α] (m : TorchRand γ α) (sqrtf : α → α)
    (lr beta1 beta2 eps : α) (rank : Option ℤ) (kappa : ℤ)
    (v g : Tensor α) (dev : Device) (dt : Dtype)
    (stS : Option ℕ) (cs : ℤ) (stEA stEAS : Option (Tensor α))
    (hk0 : kappa ≠ 0)
    (hmom : stS = none ∨ (stEA.isSome = true ∧ stEAS.isSome = true)) :
    ∃ q f, stepParam m sqrtf lr beta1 beta2 eps rank kappa
        ⟨v, some g, dev, dt, ⟨stS, some cs, stEA, stEAS⟩⟩ = .ok (q, f) := by
  by_cases hsc : should_compress rank g.shape = true
  · cases stS with
    | none =>
      simp only [stepParam, hsc, if_true, Option.isNone_none]
      rw [if_neg hk0]
      split
      · exact ⟨_, _, rfl⟩
      · exact ⟨_, _, rfl⟩
    | some n =>
      rcases hmom with hmom | ⟨hEA, hEAS⟩
      · exact absurd hmom (by simp)
      · cases stEA with
        | none => simp at hEA
        | some ea =>
          cases stEAS with
          | none => simp at hEAS
          | some eas =>
            simp only [stepParam, hsc, if_true, Option.isNone_some, Bool.false_eq_true,
              if_false]
            rw [if_neg hk0]
            split
            · exact ⟨_, _, rfl⟩
            · exact ⟨_, _, rfl⟩
  · have hsc' : should_compress rank g.shape = false := by
      simpa using hsc
    cases stS with
    | none =>
      simp only [stepParam, hsc', Bool.false_eq_true, if_false, Option.isNone_none, if_true]
      exact ⟨_, _, rfl⟩
    | some n =>
      rcases hmom with hmom | ⟨hEA, hEAS⟩
      · exact absurd hmom (by simp)
      · cases stEA with
        | none => simp at hEA
        | some ea =>
          cases stEAS with
          | none => simp at hEAS
          | some eas =>
            simp only [stepParam, hsc', Bool.false_eq_true, if_false, Option.isNone_some]
            exact ⟨_, _, rfl⟩

/-! ## Claims -/

/-- Claim C1: `should_compress(group, shape)` is true iff the group's
rank is configured and positive, the shape has exactly 2 dimensions,
`min(shape)` is at least the rank, and `max(shape)/min(shape) ≤ 4`
(real division); in particular shape `(4096,128)` with rank 8 is
rejected and shape `(256,64)` with rank 8 is accepted. -/
theorem c1_should_compress_characterization :
    (∀ (rank : Option ℤ) (shape : List ℕ),
      should_compress rank shape = true ↔
        ∃ r : ℤ, rank = some r ∧ 0 < r ∧ shape.length = 2 ∧
          r ≤ (listMin shape : ℤ) ∧
          (listMax shape : ℚ) / (listMin shape : ℚ) ≤ 4)
    ∧ should_compress (some 8) [4096, 128] = false
    ∧ should_compress (some 8) [256, 64] = true := by
  refine ⟨?_, by decide, by decide⟩
  intro rank shape
  cases rank with
  | none => simp [should_compress]
  | some r =>
    simp only [should_compress, Bool.and_eq_true, decide_eq_true_eq, Option.some.injEq]
    constructor
    · rintro ⟨⟨⟨hr, hlen⟩, hmin⟩, hq⟩
      have hmpos : 0 < (listMin shape : ℚ) := by
        have h0 : (0 : ℤ) < (listMin shape : ℤ) := lt_of_lt_of_le hr hmin
        exact_mod_cast h0
      refine ⟨r, rfl, hr, hlen, hmin, ?_⟩
      rw [div_le_iff₀ hmpos]
      have hq' : (listMax shape : ℚ) ≤ ((4 * listMin shape : ℕ) : ℚ) := by
        exact_mod_cast hq
      push_cast at hq'
      linarith
    · rintro ⟨r', hr', hrpos, hlen, hmin, hq⟩
      obtain rfl : r = r' := hr'
      have hmpos : 0 < (listMin shape : ℚ) := by
        have h0 : (0 : ℤ) < (listMin shape : ℤ) := lt_of_lt_of_le hrpos hmin
        exact_mod_cast h0
      refine ⟨⟨⟨hrpos, hlen⟩, hmin⟩, ?_⟩
      rw [div_le_iff₀ hmpos] at hq
      have hq' : (listMax shape : ℚ) ≤ ((4 * listMin shape : ℕ) : ℚ) := by
        push_cast
        linarith
      exact_mod_cast hq'

/-- Claim C8: `stable_randn` is bit-reproducible for identical
`(shape, seed, device, dtype)` arguments, never mutates the ambient
random state, and its value is a function of exactly those arguments
(drawn from a private generator seeded by `seed`). -/
theorem c8_stable_randn_deterministic_and_pure :
    ∀ (γ α : Type) (m : TorchRand γ α) (shape : List ℕ) (seed : ℤ)
      (device : Option Device) (dtype : Dtype) (w1 w2 : RngWorld γ),
      (stable_randn m shape seed device dtype w1).1
          = (stable_randn m shape seed device dtype w2).1
        ∧ (stable_randn m shape seed device dtype w1).2 = w1
        ∧ (stable_randn m shape seed device dtype w1).1
          = stable_randn_value m shape seed (device.getD Device.cpu) dtype :=
  fun _ _ _ _ _ _ _ _ _ => ⟨rfl, rfl, rfl⟩

/-- Claim C4 (counterexample): construction succeeds on a configuration
that violates every validation rule at once — `lr` unset, `rank` set and
nonpositive, `kappa` nonpositive, both betas outside `[0,1)` — so the
claimed construction-time failure does not happen. -/
theorem c4_counterexample :
    (∃ inst, floraInit cfgBad [[true]] = .ok inst)
      ∧ cfgBad.lr = none
      ∧ cfgBad.rank = some (-3) ∧ (-3 : ℤ) ≤ 0
      ∧ cfgBad.kappa ≤ 0
      ∧ ¬ (0 ≤ cfgBad.betas.1 ∧ cfgBad.betas.1 < 1)
      ∧ ¬ (0 ≤ cfgBad.betas.2 ∧ cfgBad.betas.2 < 1) := by
  refine ⟨⟨_, rfl⟩, rfl, rfl, by decide, by decide, ?_, ?_⟩
  · intro h
    have := h.2
    norm_num [cfgBad] at this
  · intro h
    have := h.1
    norm_num [cfgBad] at this

/-- Claim C4 (amended): the constructor performs no configuration
validation at all; for every configuration — including any with
`rank ≤ 0`, `kappa ≤ 0`, `lr` unset or nonpositive, or betas outside
`[0,1)` — construction succeeds whenever the parameter-group list is
nonempty (the base class rejects only an empty list). -/
theorem c4_no_validation_amended :
    ∀ (α : Type) (cfg : FloraConfig α) (groups : List (List Bool)),
      groups ≠ [] → ∃ inst, floraInit cfg groups = .ok inst := by
  intro α cfg groups h
  cases groups with
  | nil => exact absurd rfl h
  | cons g gs => exact ⟨_, rfl⟩

/-- Witness for the amended C4 theorem at the concrete invalid
configuration `cfgBad` and a one-parameter group list. -/
theorem c4_no_validation_amended_witness :
    [[true]] ≠ ([] : List (List Bool))
      ∧ ∃ inst, floraInit cfgBad [[true]] = .ok inst :=
  ⟨by decide, c4_no_validation_amended ℚ cfgBad [[true]] (by decide)⟩

/-- Claim C2 (counterexample): the compressed/full mode is not fixed at
state initialization.  On the same parameter, a first call with rank
unset takes the full branch (flag `some false`); a second call after the
group's rank is set to 2 takes the compressed branch (flag `some true`),
a different branch than the first call, because the policy is
re-evaluated on every invocation. -/
theorem c2_counterexample :
    (stepParam mTest id 1 (1/2) (1/2) 1 none 1 pSquare).map Prod.snd
        = Except.ok (some false)
      ∧ ((stepParam mTest id 1 (1/2) (1/2) 1 none 1 pSquare).bind
          (fun r => stepParam mTest id 1 (1/2) (1/2) 1 (some 2) 1 r.1)).map Prod.snd
        = Except.ok (some true)
      ∧ (some false : Option Bool) ≠ some true :=
  ⟨rfl, rfl, by decide⟩

/-- Claim C2 (amended): the compression policy is re-evaluated on every
update call against the group's current rank and the current gradient
shape; the branch a call takes is exactly the policy's value at that
call, independent of the parameter's stored state and of any earlier
calls (so the branch is stable only while rank and gradient shape are). -/
theorem c2_policy_reevaluated_amended :
    ∀ (γ α : Type) [inst : Field α] (m : TorchRand γ α) (sqrtf : α → α)
      (lr beta1 beta2 eps : α) (rank : Option ℤ) (kappa : ℤ)
      (p : Param α) (g : Tensor α) (q : Param α) (f : Option Bool),
      p.grad = some g →
      stepParam m sqrtf lr beta1 beta2 eps rank kappa p = .ok (q, f) →
      f = some (should_compress rank g.shape) := by
  intro γ α inst m sqrtf lr beta1 beta2 eps rank kappa p g q f hg h
  rcases p with ⟨v, gr, dev, dt, ⟨stS, stSeed, stEA, stEAS⟩⟩
  obtain rfl : gr = some g := hg
  exact (stepParam_ok_spec m sqrtf lr beta1 beta2 eps rank kappa
    v g dev dt stS stSeed stEA stEAS q f h).1

/-- Witness for the amended C2 theorem on a concrete full-path call. -/
theorem c2_policy_reevaluated_amended_witness :
    ∃ q f, stepParam mTest id 1 (1/2) (1/2) 1 none 1 pSquare = Except.ok (q, f)
      ∧ f = some (should_compress none [2, 2]) := by
  refine ⟨_, _, rfl, ?_⟩
  exact c2_policy_reevaluated_amended ℤ ℚ mTest id 1 (1/2) (1/2) 1 none 1
    pSquare ⟨[2, 2], fun _ => 1⟩ _ _ rfl rfl

/-- Claim C7: a parameter whose gradient is absent for an invocation is
skipped entirely — parameter value, step counter, seed and both moments
untouched, and no branch is taken — while a parameter with a gradient
has its step counter increased by exactly 1. -/
theorem c7_skip_and_step_increment :
    (∀ (γ α : Type) [inst : Field α] (m : TorchRand γ α) (sqrtf : α → α)
        (lr beta1 beta2 eps : α) (rank : Option ℤ) (kappa : ℤ) (p : Param α),
        p.grad = none →
        stepParam m sqrtf lr beta1 beta2 eps rank kappa p = .ok (p, none))
    ∧ (∀ (γ α : Type) [inst : Field α] (m : TorchRand γ α) (sqrtf : α → α)
        (lr beta1 beta2 eps : α) (rank : Option ℤ) (kappa : ℤ)
        (p : Param α) (g : Tensor α) (q : Param α) (f : Option Bool),
        p.grad = some g →
        stepParam m sqrtf lr beta1 beta2 eps rank kappa p = .ok (q, f) →
        q.state.step = some (p.state.step.getD 0 + 1)) := by
  constructor
  · intro γ α inst m sqrtf lr beta1 beta2 eps rank kappa p hg
    exact stepParam_skip m sqrtf lr beta1 beta2 eps rank kappa p hg
  · intro γ α inst m sqrtf lr beta1 beta2 eps rank kappa p g q f hg h
    rcases p with ⟨v, gr, dev, dt, ⟨stS, stSeed, stEA, stEAS⟩⟩
    obtain rfl : gr = some g := hg
    exact (stepParam_ok_spec m sqrtf lr beta1 beta2 eps rank kappa
      v g dev dt stS stSeed stEA stEAS q f h).2.1

/-- Witness for C7: a skipped no-gradient call leaves the parameter
untouched, and a call with a gradient moves the step counter to 1. -/
theorem c7_skip_and_step_increment_witness :
    stepParam mTest id 1 (1/2) (1/2) 1 none 1000 pVecNoGrad
        = Except.ok (pVecNoGrad, none)
      ∧ ∃ q f, stepParam mTest id 1 (1/2) (1/2) 1 none 1000 pVec = Except.ok (q, f)
          ∧ q.state.step = some (pVec.state.step.getD 0 + 1) := by
  refine ⟨c7_skip_and_step_increment.1 ℤ ℚ mTest id 1 (1/2) (1/2) 1 none 1000
    pVecNoGrad rfl, ⟨_, _, rfl, ?_⟩⟩
  exact c7_skip_and_step_increment.2 ℤ ℚ mTest id 1 (1/2) (1/2) 1 none 1000
    pVec ⟨[3], fun _ => 1⟩ _ _ rfl rfl

/-- Seed evolution over `k` further updates of a compressed parameter
whose state is already initialized (step counter `j`, both moments
present): the run succeeds and the seed is advanced by `next_seed` once
for every multiple of kappa = 4 among steps `j+1 .. j+k`. -/
theorem iterateStep_seed_count {γ α : Type} [Field α] (m : TorchRand γ α) (sqrtf : α → α)
    (lr beta1 beta2 eps : α) (rk : ℤ) (g : Tensor α)
    (hsc : should_compress (some rk) g.shape = true) :
    ∀ (k j : ℕ) (v ea eas : Tensor α) (dev : Device) (dt : Dtype) (s : ℤ),
      ∃ q, iterateStep m sqrtf lr beta1 beta2 eps (some rk) 4 k
            ⟨v, some g, dev, dt, ⟨some j, some s, some ea, some eas⟩⟩ = .ok q
        ∧ q.state.seed = some ((fun x => next_seed m x)^[(j + k) / 4 - j / 4] s) := by
  intro k
  induction k with
  | zero =>
    intro j v ea eas dev dt s
    exact ⟨_, rfl, by simp⟩
  | succ k ih =>
    intro j v ea eas dev dt s
    obtain ⟨q1, f1, hq1⟩ := stepParam_progress m sqrtf lr beta1 beta2 eps (some rk) 4
      v g dev dt (some j) s (some ea) (some eas) (by decide) (Or.inr ⟨rfl, rfl⟩)
    obtain ⟨hf, hstep, hseed, hgrad, hdev, hdt, hEA, hEAS⟩ :=
      stepParam_ok_spec m sqrtf lr beta1 beta2 eps (some rk) 4
        v g dev dt (some j) (some s) (some ea) (some eas) q1 f1 hq1
    rcases q1 with ⟨v1, gr1, dev1, dt1, ⟨stS1, stSeed1, stEA1, stEAS1⟩⟩
    dsimp only at hstep hseed hgrad hdev hdt hEA hEAS
    subst hgrad hdev hdt hstep
    obtain ⟨ea1, rfl⟩ := Option.isSome_iff_exists.mp hEA
    obtain ⟨eas1, rfl⟩ := Option.isSome_iff_exists.mp hEAS
    by_cases hmod : ((j + 1 : ℕ) : ℤ) % 4 = 0
    · rw [if_pos ⟨hsc, hmod⟩] at hseed
      rw [show Option.map (fun x => next_seed m x) (some s) = some (next_seed m s)
        from rfl] at hseed
      subst hseed
      obtain ⟨q2, hq2, hseed2⟩ := ih (j + 1) v1 ea1 eas1 dev1 dt1 (next_seed m s)
      refine ⟨q2, ?_, ?_⟩
      · simp only [iterateStep, hq1]
        exact hq2
      · have harith : (j + (k + 1)) / 4 - j / 4 = ((j + 1 + k) / 4 - (j + 1) / 4) + 1 := by
          omega
        rw [hseed2, harith, Function.iterate_succ_apply]
    · rw [if_neg (fun hc => hmod hc.2)] at hseed
      subst hseed
      obtain ⟨q2, hq2, hseed2⟩ := ih (j + 1) v1 ea1 eas1 dev1 dt1 s
      refine ⟨q2, ?_, ?_⟩
      · simp only [iterateStep, hq1]
        exact hq2
      · have harith : (j + (k + 1)) / 4 - j / 4 = (j + 1 + k) / 4 - (j + 1) / 4 := by
          omega
        rw [hseed2, harith]

/-- Seed evolution over `k` updates of a compressed parameter starting
from its fresh post-construction state (only the `seed` key assigned,
kappa = 4): the run succeeds and the final seed is the initial seed
advanced `k / 4` times. -/
theorem iterateStep_fresh_seed {γ α : Type} [Field α] (m : TorchRand γ α) (sqrtf : α → α)
    (lr beta1 beta2 eps : α) (rk : ℤ) (g : Tensor α)
    (hsc : should_compress (some rk) g.shape = true) :
    ∀ (k : ℕ) (v : Tensor α) (dev : Device) (dt : Dtype) (s0 : ℤ),
      ∃ q, iterateStep m sqrtf lr beta1 beta2 eps (some rk) 4 k
            ⟨v, some g, dev, dt, ⟨none, some s0, none, none⟩⟩ = .ok q
        ∧ q.state.seed = some ((fun x => next_seed m x)^[k / 4] s0) := by
  intro k v dev dt s0
  cases k with
  | zero => exact ⟨_, rfl, by simp⟩
  | succ k =>
    obtain ⟨q1, f1, hq1⟩ := stepParam_progress m sqrtf lr beta1 beta2 eps (some rk) 4
      v g dev dt none s0 none none (by decide) (Or.inl rfl)
    obtain ⟨hf, hstep, hseed, hgrad, hdev, hdt, hEA, hEAS⟩ :=
      stepParam_ok_spec m sqrtf lr beta1 beta2 eps (some rk) 4
        v g dev dt none (some s0) none none q1 f1 hq1
    rcases q1 with ⟨v1, gr1, dev1, dt1, ⟨stS1, stSeed1, stEA1, stEAS1⟩⟩
    dsimp only at hstep hseed hgrad hdev hdt hEA hEAS
    subst hgrad hdev hdt hstep
    obtain ⟨ea1, rfl⟩ := Option.isSome_iff_exists.mp hEA
    obtain ⟨eas1, rfl⟩ := Option.isSome_iff_exists.mp hEAS
    rw [if_neg (fun hc => absurd hc.2 (by decide))] at hseed
    subst hseed
    obtain ⟨q2, hq2, hseed2⟩ := iterateStep_seed_count m sqrtf lr beta1 beta2 eps rk g hsc
      k 1 v1 ea1 eas1 dev1 dt1 s0
    refine ⟨q2, ?_, ?_⟩
    · simp only [iterateStep, hq1]
      exact hq2
    · rw [hseed2]
      have harith : (1 + k) / 4 - 1 / 4 = (k + 1) / 4 := by omega
      rw [harith]

/-- Claim C3: across any sequence of updates, the stored seed changes
only when compression is active and the incremented step counter `t`
satisfies `t mod kappa = 0`, in which case it becomes
`next_seed(currentSeed)`; and with kappa = 4, over updates of a
compressed parameter the seed after `k` updates is the initial seed
advanced `k / 4` times, so within 10 updates it changes exactly after
updates 4 and 8 (for any generator model whose `next_seed` has no fixed
point). -/
theorem c3_seed_rotation_discipline :
    (∀ (γ α : Type) [inst : Field α] (m : TorchRand γ α) (sqrtf : α → α)
        (lr beta1 beta2 eps : α) (rank : Option ℤ) (kappa : ℤ)
        (p : Param α) (g : Tensor α) (q : Param α) (f : Option Bool),
        0 < kappa →
        p.grad = some g →
        stepParam m sqrtf lr beta1 beta2 eps rank kappa p = .ok (q, f) →
        q.state.seed =
          (if should_compress rank g.shape = true
              ∧ ((p.state.step.getD 0 + 1 : ℕ) : ℤ) % kappa = 0
           then p.state.seed.map (fun s => next_seed m s)
           else p.state.seed))
    ∧ (∀ (γ α : Type) [inst : Field α] (m : TorchRand γ α) (sqrtf : α → α)
        (lr beta1 beta2 eps : α) (rk : ℤ) (g v : Tensor α) (dev : Device) (dt : Dtype)
        (s0 : ℤ),
        should_compress (some rk) g.shape = true →
        (∀ s, next_seed m s ≠ s) →
        (∀ k : ℕ,
          (iterateStep m sqrtf lr beta1 beta2 eps (some rk) 4 k
              ⟨v, some g, dev, dt, ⟨none, some s0, none, none⟩⟩).map
                (fun q => q.state.seed)
            = .ok (some ((fun x => next_seed m x)^[k / 4] s0)))
        ∧ (∀ k : ℕ, 1 ≤ k → k ≤ 10 →
            ((iterateStep m sqrtf lr beta1 beta2 eps (some rk) 4 k
                ⟨v, some g, dev, dt, ⟨none, some s0, none, none⟩⟩).map
                  (fun q => q.state.seed)
              ≠ (iterateStep m sqrtf lr beta1 beta2 eps (some rk) 4 (k - 1)
                  ⟨v, some g, dev, dt, ⟨none, some s0, none, none⟩⟩).map
                    (fun q => q.state.seed)
              ↔ (k = 4 ∨ k = 8)))) := by
  constructor
  · intro γ α inst m sqrtf lr beta1 beta2 eps rank kappa p g q f hk hg h
    rcases p with ⟨v, gr, dev, dt, ⟨stS, stSeed, stEA, stEAS⟩⟩
    obtain rfl : gr = some g := hg
    exact (stepParam_ok_spec m sqrtf lr beta1 beta2 eps rank kappa
      v g dev dt stS stSeed stEA stEAS q f h).2.2.1
  · intro γ α inst m sqrtf lr beta1 beta2 eps rk g v dev dt s0 hsc hm
    have hformula : ∀ k : ℕ,
        (iterateStep m sqrtf lr beta1 beta2 eps (some rk) 4 k
            ⟨v, some g, dev, dt, ⟨none, some s0, none, none⟩⟩).map
              (fun q => q.state.seed)
          = .ok (some ((fun x => next_seed m x)^[k / 4] s0)) := by
      intro k
      obtain ⟨q, hq, hs⟩ := iterateStep_fresh_seed m sqrtf lr beta1 beta2 eps rk g hsc
        k v dev dt s0
      rw [hq]
      rw [show (Except.ok q : Except StepErr (Param α)).map (fun q => q.state.seed)
        = Except.ok q.state.seed from rfl]
      rw [hs]
    refine ⟨hformula, ?_⟩
    intro k hk1 hk10
    rw [hformula k, hformula (k - 1)]
    simp only [ne_eq, Except.ok.injEq, Option.some.injEq]
    interval_cases k <;>
      simp [Function.iterate_succ_apply', hm s0, hm (next_seed m s0)]

/-- Witness for C3 at a concrete compressed parameter (rank 2, shape
2 by 2, kappa 4): one update leaves the seed unchanged per the formula,
and after 4 updates the seed equals the initial seed advanced once. -/
theorem c3_seed_rotation_discipline_witness :
    (0 : ℤ) < 4
    ∧ (∃ q f, stepParam mTest id 1 (1/2) (1/2) 1 (some 2) 4 pSquare = Except.ok (q, f)
        ∧ q.state.seed =
            (if should_compress (some 2) ((⟨[2, 2], fun _ => (1 : ℚ)⟩ : Tensor ℚ)).shape = true
                ∧ ((pSquare.state.step.getD 0 + 1 : ℕ) : ℤ) % 4 = 0
             then pSquare.state.seed.map (fun s => next_seed mTest s)
             else pSquare.state.seed))
    ∧ (iterateStep mTest id 1 (1/2) (1/2) 1 (some 2) 4 4 pSquare).map (fun q => q.state.seed)
        = Except.ok (some ((fun x => next_seed mTest x)^[4 / 4] 7)) := by
  have hm : ∀ s : ℤ, next_seed mTest s ≠ s := by
    intro s
    rw [show next_seed mTest s = s + 1 from rfl]
    omega
  refine ⟨by decide, ⟨_, _, rfl, ?_⟩, ?_⟩
  · exact c3_seed_rotation_discipline.1 ℤ ℚ mTest id 1 (1/2) (1/2) 1 (some 2) 4
      pSquare ⟨[2, 2], fun _ => 1⟩ _ _ (by decide) rfl rfl
  · exact (c3_seed_rotation_discipline.2 ℤ ℚ mTest id 1 (1/2) (1/2) 1 2
      ⟨[2, 2], fun _ => 1⟩ ⟨[2, 2], fun _ => 0⟩ Device.cpu Dtype.float32 7
      (by decide) hm).1 4

/-- Claim C5: on the full (uncompressed) path — taken in particular
whenever rank is unset — the update written by `step` is exactly the
standard Adam update: beta moving averages in full space, bias
correction by `1 - beta^t`, and the parameter decremented by
`lr * corrected_avg / (sqrt(corrected_avg_sq) + eps)`, with no
projection. -/
theorem c5_full_path_is_adam :
    (∀ (γ α : Type) [inst : Field α] (m : TorchRand γ α) (sqrtf : α → α)
        (lr beta1 beta2 eps : α) (rank : Option ℤ) (kappa : ℤ)
        (v g m0 v0 : Tensor α) (dev : Device) (dt : Dtype)
        (t0 : ℕ) (stSeed : Option ℤ),
        should_compress rank g.shape = false →
        stepParam m sqrtf lr beta1 beta2 eps rank kappa
            ⟨v, some g, dev, dt, ⟨some t0, stSeed, some m0, some v0⟩⟩
          = .ok
              (⟨⟨v.shape, fun ix =>
                  (adamParamUpdate sqrtf lr beta1 beta2 eps (t0 + 1)
                    (v.entry ix) (m0.entry ix) (v0.entry ix) (g.entry ix)).1⟩,
                some g, dev, dt,
                ⟨some (t0 + 1), stSeed,
                 some ⟨m0.shape, fun ix =>
                   (adamParamUpdate sqrtf lr beta1 beta2 eps (t0 + 1)
                     (v.entry ix) (m0.entry ix) (v0.entry ix) (g.entry ix)).2.1⟩,
                 some ⟨v0.shape, fun ix =>
                   (adamParamUpdate sqrtf lr beta1 beta2 eps (t0 + 1)
                     (v.entry ix) (m0.entry ix) (v0.entry ix) (g.entry ix)).2.2⟩⟩⟩,
               some false))
    ∧ (∀ shape : List ℕ, should_compress none shape = false) := by
  constructor
  · intro γ α inst m sqrtf lr beta1 beta2 eps rank kappa v g m0 v0 dev dt t0 stSeed hsc
    simp only [stepParam, hsc, Bool.false_eq_true, if_false, Option.isNone_some,
      Option.getD_some]
    have hT1 :
        Tensor.map3 (fun pv u d => pv + -lr * (u / d)) v
            (Tensor.map (fun x => x / (1 - beta1 ^ (t0 + 1)))
              (Tensor.map2 (fun a g => beta1 * a + (1 - beta1) * g) m0 g))
            (Tensor.map (fun x => sqrtf x + eps)
              (Tensor.map (fun x => x / (1 - beta2 ^ (t0 + 1)))
                (Tensor.map2 (fun u w => beta2 * u + (1 - beta2) * (w * w)) v0 g)))
          = (⟨v.shape, fun ix =>
              (adamParamUpdate sqrtf lr beta1 beta2 eps (t0 + 1)
                (v.entry ix) (m0.entry ix) (v0.entry ix) (g.entry ix)).1⟩ : Tensor α) := by
      refine Tensor.entry_ext rfl (fun ix => ?_)
      simp only [Tensor.map3, Tensor.map2, Tensor.map, adamParamUpdate]
      ring
    have hT2 :
        Tensor.map2 (fun a g => beta1 * a + (1 - beta1) * g) m0 g
          = (⟨m0.shape, fun ix =>
              (adamParamUpdate sqrtf lr beta1 beta2 eps (t0 + 1)
                (v.entry ix) (m0.entry ix) (v0.entry ix) (g.entry ix)).2.1⟩ : Tensor α) := by
      refine Tensor.entry_ext rfl (fun ix => ?_)
      simp only [Tensor.map2, adamParamUpdate]
    have hT3 :
        Tensor.map2 (fun u w => beta2 * u + (1 - beta2) * (w * w)) v0 g
          = (⟨v0.shape, fun ix =>
              (adamParamUpdate sqrtf lr beta1 beta2 eps (t0 + 1)
                (v.entry ix) (m0.entry ix) (v0.entry ix) (g.entry ix)).2.2⟩ : Tensor α) := by
      refine Tensor.entry_ext rfl (fun ix => ?_)
      simp only [Tensor.map2, adamParamUpdate]
    rw [hT1, hT2, hT3]
  · intro shape
    rfl

/-- Witness for C5 on a concrete 3-vector parameter with initialized
state: the full-path update equals the Adam formulas entrywise. -/
theorem c5_full_path_is_adam_witness :
    should_compress none ((⟨[3], fun _ => (1 : ℚ)⟩ : Tensor ℚ)).shape = false
    ∧ stepParam mTest id 1 (1/2) (1/2) 1 none 1000 pVecInit
      = Except.ok
          (⟨⟨(⟨[3], fun _ => (0 : ℚ)⟩ : Tensor ℚ).shape, fun ix =>
              (adamParamUpdate id 1 (1/2) (1/2) 1 (1 + 1)
                ((⟨[3], fun _ => (0 : ℚ)⟩ : Tensor ℚ).entry ix)
                ((⟨[3], fun _ => (0 : ℚ)⟩ : Tensor ℚ).entry ix)
                ((⟨[3], fun _ => (0 : ℚ)⟩ : Tensor ℚ).entry ix)
                ((⟨[3], fun _ => (1 : ℚ)⟩ : Tensor ℚ).entry ix)).1⟩,
            some ⟨[3], fun _ => 1⟩, Device.cpu, Dtype.float32,
            ⟨some (1 + 1), some 3,
             some ⟨(⟨[3], fun _ => (0 : ℚ)⟩ : Tensor ℚ).shape, fun ix =>
               (adamParamUpdate id 1 (1/2) (1/2) 1 (1 + 1)
                 ((⟨[3], fun _ => (0 : ℚ)⟩ : Tensor ℚ).entry ix)
                 ((⟨[3], fun _ => (0 : ℚ)⟩ : Tensor ℚ).entry ix)
                 ((⟨[3], fun _ => (0 : ℚ)⟩ : Tensor ℚ).entry ix)
                 ((⟨[3], fun _ => (1 : ℚ)⟩ : Tensor ℚ).entry ix)).2.1⟩,
             some ⟨(⟨[3], fun _ => (0 : ℚ)⟩ : Tensor ℚ).shape, fun ix =>
               (adamParamUpdate id 1 (1/2) (1/2) 1 (1 + 1)
                 ((⟨[3], fun _ => (0 : ℚ)⟩ : Tensor ℚ).entry ix)
                 ((⟨[3], fun _ => (0 : ℚ)⟩ : Tensor ℚ).entry ix)
                 ((⟨[3], fun _ => (0 : ℚ)⟩ : Tensor ℚ).entry ix)
                 ((⟨[3], fun _ => (1 : ℚ)⟩ : Tensor ℚ).entry ix)).2.2⟩⟩⟩,
           some false) :=
  ⟨by decide,
   c5_full_path_is_adam.1 ℤ ℚ mTest id 1 (1/2) (1/2) 1 none 1000
     ⟨[3], fun _ => 0⟩ ⟨[3], fun _ => 1⟩ ⟨[3], fun _ => 0⟩ ⟨[3], fun _ => 0⟩
     Device.cpu Dtype.float32 1 (some 3) (by decide)⟩

/-- Claim C6: for a compressed parameter of rank `r` with
`(leftSeed, rightSeed) = split_seed(seed)`: when `shape[0] < shape[-1]`
the projection is `L` of shape `(r, shape[0])`, drawn from the generator
seeded by `leftSeed` and scaled by `1/sqrt r`, with
`down_proj(t) = L @ t` (result shape `(r, shape[-1])`) and
`up_proj(c) = Lᵀ @ c`; otherwise it is `R` of shape `(shape[-1], r)`
drawn from `rightSeed`, with `down_proj(t) = t @ R` (result shape
`(shape[0], r)`) and `up_proj(c) = c @ Rᵀ`. -/
theorem c6_projection_operators :
    ∀ (γ α : Type) [inst : Field α] (m : TorchRand γ α) (sqrtf : α → α)
      (seed : ℤ) (rank : ℕ) (dev : Device) (dt : Dtype)
      (nr mc : ℕ) (t c : Tensor α),
      t.shape = [nr, mc] →
      ((nr < mc →
          down_proj m sqrtf seed rank dev dt t
              = ((stable_randn_value m [rank, nr] (split_seed m seed).1 dev dt).map
                  (fun x => x / sqrtf (rank : α))).matMul t
            ∧ (down_proj m sqrtf seed rank dev dt t).shape = [rank, mc]
            ∧ up_proj m sqrtf seed rank [nr, mc] dev dt c
              = ((stable_randn_value m [rank, nr] (split_seed m seed).1 dev dt).map
                  (fun x => x / sqrtf (rank : α))).transpose.matMul c)
        ∧ (¬ nr < mc →
          down_proj m sqrtf seed rank dev dt t
              = t.matMul ((stable_randn_value m [mc, rank] (split_seed m seed).2 dev dt).map
                  (fun x => x / sqrtf (rank : α)))
            ∧ (down_proj m sqrtf seed rank dev dt t).shape = [nr, rank]
            ∧ up_proj m sqrtf seed rank [nr, mc] dev dt c
              = c.matMul ((stable_randn_value m [mc, rank] (split_seed m seed).2 dev dt).map
                  (fun x => x / sqrtf (rank : α))).transpose)) := by
  intro γ α inst m sqrtf seed rank dev dt nr mc t c ht
  have hhead : ([nr, mc] : List ℕ).headD 0 = nr := rfl
  have hlast : ([nr, mc] : List ℕ).getLastD 0 = mc := rfl
  constructor
  · intro hw
    have hdown : down_proj m sqrtf seed rank dev dt t
        = ((stable_randn_value m [rank, nr] (split_seed m seed).1 dev dt).map
            (fun x => x / sqrtf (rank : α))).matMul t := by
      rw [down_proj, ht, hhead, hlast, if_pos hw]
    refine ⟨hdown, ?_, ?_⟩
    · rw [hdown]
      show [((stable_randn_value m [rank, nr] (split_seed m seed).1 dev dt).map
          (fun x => x / sqrtf (rank : α))).shape.headD 0, t.shape.getD 1 0] = [rank, mc]
      rw [show ((stable_randn_value m [rank, nr] (split_seed m seed).1 dev dt).map
          (fun x => x / sqrtf (rank : α))).shape
        = (stable_randn_value m [rank, nr] (split_seed m seed).1 dev dt).shape from rfl]
      rw [stable_randn_value, m.randn_shape, ht]
      rfl
    · rw [up_proj, hhead, hlast, if_pos hw]
  · intro hw
    have hdown : down_proj m sqrtf seed rank dev dt t
        = t.matMul ((stable_randn_value m [mc, rank] (split_seed m seed).2 dev dt).map
            (fun x => x / sqrtf (rank : α))) := by
      rw [down_proj, ht, hhead, hlast, if_neg hw]
    refine ⟨hdown, ?_, ?_⟩
    · rw [hdown]
      show [t.shape.headD 0, ((stable_randn_value m [mc, rank] (split_seed m seed).2 dev dt).map
          (fun x => x / sqrtf (rank : α))).shape.getD 1 0] = [nr, rank]
      rw [show ((stable_randn_value m [mc, rank] (split_seed m seed).2 dev dt).map
          (fun x => x / sqrtf (rank : α))).shape
        = (stable_randn_value m [mc, rank] (split_seed m seed).2 dev dt).shape from rfl]
      rw [stable_randn_value, m.randn_shape, ht]
      rfl
    · rw [up_proj, hhead, hlast, if_neg hw]

/-- Witness for C6 on a concrete wide 2 by 3 tensor with rank 1. -/
theorem c6_projection_operators_witness :
    ((⟨[2, 3], fun _ => (1 : ℚ)⟩ : Tensor ℚ)).shape = [2, 3]
    ∧ (2 < 3)
    ∧ (down_proj mTest id 5 1 Device.cpu Dtype.float32 ⟨[2, 3], fun _ => (1 : ℚ)⟩
          = ((stable_randn_value mTest [1, 2] (split_seed mTest 5).1 Device.cpu
              Dtype.float32).map (fun x => x / id ((1 : ℕ) : ℚ))).matMul ⟨[2, 3], fun _ => 1⟩
        ∧ (down_proj mTest id 5 1 Device.cpu Dtype.float32
            ⟨[2, 3], fun _ => (1 : ℚ)⟩).shape = [1, 3]
        ∧ up_proj mTest id 5 1 [2, 3] Device.cpu Dtype.float32 ⟨[1, 3], fun _ => (2 : ℚ)⟩
          = ((stable_randn_value mTest [1, 2] (split_seed mTest 5).1 Device.cpu
              Dtype.float32).map
                (fun x => x / id ((1 : ℕ) : ℚ))).transpose.matMul ⟨[1, 3], fun _ => 2⟩) :=
  ⟨rfl, by decide,
   (c6_projection_operators ℤ ℚ mTest id 5 1 Device.cpu Dtype.float32 2 3
     ⟨[2, 3], fun _ => 1⟩ ⟨[1, 3], fun _ => 2⟩ rfl).1 (by decide)⟩

/-- The seed-assignment loop's final counter value: the start value
plus the number of parameters walked. -/
theorem assignSeedsList_fst (idx : ℤ) (l : List Bool) :
    (assignSeedsList idx l).1 = idx + l.length := by
  induction l generalizing idx with
  | nil => simp [assignSeedsList]
  | cons b bs ih =>
    simp only [assignSeedsList, ih (idx + 1), List.length_cons]
    push_cast
    ring

/-- Entry characterization of the per-group assignment loop: the
parameter at 0-based position `k` gets seed `idx + k + 1` when it
requires grad, and no entry otherwise. -/
theorem assignSeedsList_get (idx : ℤ) (l : List Bool) (k : ℕ) :
    (assignSeedsList idx l).2[k]? =
      (l[k]?).map (fun rg => if rg then some (idx + (k : ℤ) + 1) else none) := by
  induction l generalizing idx k with
  | nil => simp [assignSeedsList]
  | cons b bs ih =>
    cases k with
    | zero => simp [assignSeedsList]
    | succ k =>
      rw [show (assignSeedsList idx (b :: bs)).2
          = (if b then some (idx + 1) else none) :: (assignSeedsList (idx + 1) bs).2
        from rfl]
      rw [List.getElem?_cons_succ, List.getElem?_cons_succ, ih (idx + 1) k]
      cases hbk : bs[k]? with
      | none => simp
      | some rg =>
        cases rg <;> simp <;> push_cast <;> ring

/-- The assignment loop over a concatenation splits, the second part
starting from the counter advanced by the first part's length. -/
theorem assignSeedsList_append (idx : ℤ) (a b : List Bool) :
    (assignSeedsList idx (a ++ b)).2
      = (assignSeedsList idx a).2 ++ (assignSeedsList (idx + a.length) b).2 := by
  induction a generalizing idx with
  | nil => simp [assignSeedsList]
  | cons x xs ih =>
    simp only [List.cons_append, assignSeedsList]
    rw [show (xs.append b) = xs ++ b from rfl, ih (idx + 1)]
    have harith : idx + 1 + (xs.length : ℤ) = idx + ((xs.length + 1 : ℕ) : ℤ) := by
      push_cast
      ring
    rw [harith]
    rfl

/-- Flattening the grouped assignment equals assigning over the
flattened parameter list: grouping does not affect the walk order. -/
theorem assignSeeds_flatten (idx : ℤ) (gs : List (List Bool)) :
    (assignSeeds idx gs).2.flatten = (assignSeedsList idx gs.flatten).2 := by
  induction gs generalizing idx with
  | nil => simp [assignSeeds, assignSeedsList]
  | cons g rest ih =>
    simp only [assignSeeds, List.flatten_cons, ih, assignSeedsList_append,
      assignSeedsList_fst]

/-- Claim C9: at construction, the trainable parameter at overall
0-based position `k` (across all groups in iteration order) receives the
seed `base + k + 1`, i.e. base seed plus its 1-based sequential ordinal;
non-trainable parameters receive none; and all assigned seeds are
pairwise distinct.  The formula is position-dependent, so reordering
groups or parameters changes the resulting assignment. -/
theorem c9_seed_assignment :
    ∀ (base : ℤ) (groups : List (List Bool)),
      (∀ (k : ℕ) (rg : Bool),
        (groups.flatten)[k]? = some rg →
        ((assignSeeds base groups).2.flatten)[k]?
          = some (if rg then some (base + (k : ℤ) + 1) else none))
      ∧ (∀ (k1 k2 : ℕ) (s : ℤ),
          ((assignSeeds base groups).2.flatten)[k1]? = some (some s) →
          ((assignSeeds base groups).2.flatten)[k2]? = some (some s) →
          k1 = k2) := by
  intro base groups
  have hflat := assignSeeds_flatten base groups
  constructor
  · intro k rg hk
    rw [hflat, assignSeedsList_get, hk]
    rfl
  · intro k1 k2 s h1 h2
    rw [hflat, assignSeedsList_get] at h1 h2
    obtain ⟨rg1, hrg1, hv1⟩ := Option.map_eq_some'.mp h1
    obtain ⟨rg2, hrg2, hv2⟩ := Option.map_eq_some'.mp h2
    cases rg1 with
    | false => simp at hv1
    | true =>
      cases rg2 with
      | false => simp at hv2
      | true =>
        simp only [if_true] at hv1 hv2
        have e1 : base + (k1 : ℤ) + 1 = s := by
          simpa using hv1
        have e2 : base + (k2 : ℤ) + 1 = s := by
          simpa using hv2
        omega

/-- Witness for C9 on two concrete groups: the third parameter overall
(position 2) is trainable and receives seed 10 + 2 + 1 = 13. -/
theorem c9_seed_assignment_witness :
    (([[true], [false, true]].flatten)[2]? = some true
      ∧ ((assignSeeds 10 [[true], [false, true]]).2.flatten)[2]?
          = some (if true then some ((10 : ℤ) + (2 : ℕ) + 1) else none))
    ∧ (((assignSeeds 10 [[true], [false, true]]).2.flatten)[2]? = some (some 13)
        ∧ ((assignSeeds 10 [[true], [false, true]]).2.flatten)[2]? = some (some 13)
        → (2 : ℕ) = 2) := by
  constructor
  · exact ⟨rfl, (c9_seed_assignment 10 [[true], [false, true]]).1 2 true rfl⟩
  · intro h
    exact (c9_seed_assignment 10 [[true], [false, true]]).2 2 2 13 h.1 h.2

/-- Claim C10: only parameters with `requires_grad` at construction
receive a `seed` state entry; a parameter lacking the entry whose
gradient later satisfies the compression policy makes `step` read the
missing `state['seed']` and fail with a `KeyError`, so the compressed
path is error-free exactly under the precondition that every compressed
parameter required grad at construction: with a seed entry and a fresh
state the update completes whenever `kappa` is nonzero, while at
`kappa = 0` the compressed path raises a `ZeroDivisionError` at the
rotation test regardless of the seed entry. -/
theorem c10_missing_seed_safety :
    (∀ (α : Type) (cfg : FloraConfig α) (groups : List (List Bool)) (inst : FloraAdam α),
        floraInit cfg groups = .ok inst →
        ∀ (k : ℕ) (rg : Bool), (groups.flatten)[k]? = some rg →
          (inst.seeds.flatten)[k]?
              = some (if rg then some (cfg.seed + (k : ℤ) + 1) else none)
            ∧ ((if rg then some (cfg.seed + (k : ℤ) + 1) else none) : Option ℤ).isSome = rg)
    ∧ (∀ (γ α : Type) [inst : Field α] (m : TorchRand γ α) (sqrtf : α → α)
        (lr beta1 beta2 eps : α) (rank : Option ℤ) (kappa : ℤ)
        (p : Param α) (g : Tensor α),
        p.grad = some g →
        p.state.seed = none →
        should_compress rank g.shape = true →
        stepParam m sqrtf lr beta1 beta2 eps rank kappa p = .error .keyError)
    ∧ (∀ (γ α : Type) [inst : Field α] (m : TorchRand γ α) (sqrtf : α → α)
        (lr beta1 beta2 eps : α) (rank : Option ℤ) (kappa : ℤ)
        (p : Param α) (g : Tensor α) (cs : ℤ),
        kappa ≠ 0 →
        p.grad = some g →
        p.state.step = none →
        p.state.seed = some cs →
        ∃ q f, stepParam m sqrtf lr beta1 beta2 eps rank kappa p = .ok (q, f))
    ∧ (∀ (γ α : Type) [inst : Field α] (m : TorchRand γ α) (sqrtf : α → α)
        (lr beta1 beta2 eps : α) (rank : Option ℤ)
        (p : Param α) (g : Tensor α) (cs : ℤ),
        p.grad = some g →
        p.state.step = none →
        p.state.seed = some cs →
        should_compress rank g.shape = true →
        stepParam m sqrtf lr beta1 beta2 eps rank 0 p = .error .zeroDivision) := by
  refine ⟨?_, ?_, ?_, ?_⟩
  · intro α cfg groups inst hinit k rg hk
    cases groups with
    | nil => simp [floraInit] at hinit
    | cons g gs =>
      rw [show floraInit cfg (g :: gs)
          = .ok { cfg := cfg, groups := g :: gs,
                  seeds := (assignSeeds cfg.seed (g :: gs)).2 } from rfl] at hinit
      injection hinit with h
      subst h
      refine ⟨?_, by cases rg <;> rfl⟩
      rw [show (FloraAdam.mk cfg (g :: gs) (assignSeeds cfg.seed (g :: gs)).2).seeds
          = (assignSeeds cfg.seed (g :: gs)).2 from rfl]
      rw [assignSeeds_flatten, assignSeedsList_get, hk]
      rfl
  · intro γ α inst m sqrtf lr beta1 beta2 eps rank kappa p g hg hseed hsc
    rcases p with ⟨v, gr, dev, dt, ⟨stS, stSeed, stEA, stEAS⟩⟩
    obtain rfl : gr = some g := hg
    obtain rfl : stSeed = none := hseed
    exact stepParam_missing_seed m sqrtf lr beta1 beta2 eps rank kappa
      v g dev dt stS stEA stEAS hsc
  · intro γ α inst m sqrtf lr beta1 beta2 eps rank kappa p g cs hk0 hg hstep hseed
    rcases p with ⟨v, gr, dev, dt, ⟨stS, stSeed, stEA, stEAS⟩⟩
    obtain rfl : gr = some g := hg
    obtain rfl : stS = none := hstep
    obtain rfl : stSeed = some cs := hseed
    exact stepParam_progress m sqrtf lr beta1 beta2 eps rank kappa
      v g dev dt none cs stEA stEAS hk0 (Or.inl rfl)
  · intro γ α inst m sqrtf lr beta1 beta2 eps rank p g cs hg hstep hseed hsc
    rcases p with ⟨v, gr, dev, dt, ⟨stS, stSeed, stEA, stEAS⟩⟩
    obtain rfl : gr = some g := hg
    obtain rfl : stS = none := hstep
    obtain rfl : stSeed = some cs := hseed
    exact stepParam_zero_kappa m sqrtf lr beta1 beta2 eps rank
      v g dev dt cs stEA stEAS hsc

/-- Witness for C10: a trainable first parameter gets a seed entry at
construction; the seedless 2 by 2 parameter raises `KeyError` under the
compression policy; the seeded one updates fine with kappa = 4 but hits
the `ZeroDivisionError` with kappa = 0. -/
theorem c10_missing_seed_safety_witness :
    (∃ r, floraInit cfgPlain [[true, false]] = Except.ok r
        ∧ (r.seeds.flatten)[0]?
            = some (if true then some (cfgPlain.seed + ((0 : ℕ) : ℤ) + 1) else none)
        ∧ ((if true then some (cfgPlain.seed + ((0 : ℕ) : ℤ) + 1) else none) :
            Option ℤ).isSome = true)
    ∧ stepParam mTest id 1 (1/2) (1/2) 1 (some 2) 4 pNoSeed
        = Except.error StepErr.keyError
    ∧ ((4 : ℤ) ≠ 0
        ∧ ∃ q f, stepParam mTest id 1 (1/2) (1/2) 1 (some 2) 4 pSquare
            = Except.ok (q, f))
    ∧ stepParam mTest id 1 (1/2) (1/2) 1 (some 2) 0 pSquare
        = Except.error StepErr.zeroDivision := by
  refine ⟨⟨_, rfl, ?_, ?_⟩, ?_, ⟨by decide, ?_⟩, ?_⟩
  · exact (c10_missing_seed_safety.1 ℚ cfgPlain [[true, false]] _ rfl 0 true rfl).1
  · exact (c10_missing_seed_safety.1 ℚ cfgPlain [[true, false]] _ rfl 0 true rfl).2
  · exact c10_missing_seed_safety.2.1 ℤ ℚ mTest id 1 (1/2) (1/2) 1 (some 2) 4
      pNoSeed ⟨[2, 2], fun _ => 1⟩ rfl rfl (by decide)
  · exact c10_missing_seed_safety.2.2.1 ℤ ℚ mTest id 1 (1/2) (1/2) 1 (some 2) 4
      pSquare ⟨[2, 2], fun _ => 1⟩ 7 (by decide) rfl rfl rfl
  · exact c10_missing_seed_safety.2.2.2 ℤ ℚ mTest id 1 (1/2) (1/2) 1 (some 2)
      pSquare ⟨[2, 2], fun _ => 1⟩ 7 rfl rfl rfl (by decide)

end Flora

